import Mathlib

/-!
Shallow embedding of the attendance backend in `final/main.py` (and its
near-identical copy `appdevfin/main.py`, which contains the same student
endpoints and lacks the message endpoints).

The MongoDB collections are modelled as Lean lists of documents; each
pymongo call used by the handlers (`find_one`, `insert_one` under the unique
index on `(date, name)`, `update_one` with `$set`, `find`, `delete_many`,
`delete_one`, `sort`) is embedded as a list function with the driver's
sequential semantics.  `datetime.now()` is an abstract `Nat` tick passed to
the handlers that call it.

Python exception semantics are embedded explicitly: `fastapi.HTTPException`
is a subclass of `Exception`, so an `HTTPException` raised inside a handler's
`try:` block is caught by its own `except Exception as e:` clause and
re-raised as a 500 whose detail is `str(e)` (Starlette formats this as
`"{status_code}: {detail}"`, embedded below as `excStr`).  Handlers whose
source wraps store calls in `try/except` take an extra `Option String`
argument: `some m` means the underlying store driver raised an exception
with message `m` at its first store call, `none` means the store behaved
normally.  Exceptions that escape a handler with no `try/except`
(`delete_message`) surface as `Resp.uncaught`.
-/

/-- A document of the `students` collection: the dict inserted by
`create_student` (`name`, `date`, `is_present`, `timestamp`). -/
structure StudentDoc where
  name : String
  date : String
  is_present : Bool
  timestamp : Nat
deriving DecidableEq, Repr

/-- Request body of `POST /students` (pydantic model `StudentCreate`). -/
structure StudentCreate where
  name : String
  date : String
  is_present : Bool
deriving DecidableEq, Repr

/-- Response model `StudentResponse`. -/
structure StudentResponse where
  name : String
  date : String
  is_present : Bool
  timestamp : Nat
deriving DecidableEq, Repr

/-- A document of the `student_messages` collection.  The store-assigned
`_id` (a BSON ObjectId) is modelled as its 24-character hex string. -/
structure MessageDoc where
  oid : String
  content : String
  sender : String
  contact_info : String
  timestamp : Nat
deriving DecidableEq, Repr

/-- Response model `StudentMessageResponse` (`id` is `str(msg["_id"])`). -/
structure StudentMessageResponse where
  id : String
  content : String
  sender : String
  contact_info : String
  timestamp : Nat
deriving DecidableEq, Repr

/-- The database state: the two collections the verified claims touch. -/
structure DB where
  students : List StudentDoc
  messages : List MessageDoc
deriving DecidableEq, Repr

/-- Outcome of one HTTP request: a successful response with status code and
body, an `HTTPException` with status code and detail string, or an exception
that escaped the handler uncaught (FastAPI then produces a generic 500 whose
body does not contain the message). -/
inductive Resp (α : Type) where
  | ok (status : Nat) (body : α)
  | err (status : Nat) (detail : String)
  | uncaught (msg : String)
deriving DecidableEq, Repr

/-- Starlette renders `str(HTTPException(code, detail))` as
`"{code}: {detail}"`; this is the detail the blanket `except` clause exposes
when it re-wraps an inner `HTTPException` into a 500. -/
def excStr (code : Nat) (detail : String) : String :=
  toString code ++ ": " ++ detail

/-- `students.find_one({"name": name, "date": date})`: first document
matching both fields. -/
def findOneStudent (l : List StudentDoc) (name date : String) : Option StudentDoc :=
  l.find? (fun x => x.name == name && x.date == date)

/-- `students.insert_one(doc)` under the unique index on `(date, name)`:
appends the document, or raises `DuplicateKeyError` if a document with the
same `(date, name)` is already present. -/
def insertOneStudent (l : List StudentDoc) (d : StudentDoc) : Except String (List StudentDoc) :=
  if l.any (fun x => x.date == d.date && x.name == d.name) then
    .error "E11000 duplicate key error"
  else
    .ok (l ++ [d])

/-- `students.update_one({"name": name, "date": date}, {"$set": {"is_present": v}})`:
sets `is_present` on the first matching document; returns
`(matched_count, new collection)`. -/
def updateOneSetPresent (name date : String) (v : Bool) : List StudentDoc → Nat × List StudentDoc
  | [] => (0, [])
  | x :: xs =>
    if x.name == name && x.date == date then
      (1, { x with is_present := v } :: xs)
    else
      let r := updateOneSetPresent name date v xs
      (r.1, x :: r.2)

/-- The `StudentResponse` built from a stored document, as in the handlers'
response construction. -/
def studentToResp (d : StudentDoc) : StudentResponse :=
  ⟨d.name, d.date, d.is_present, d.timestamp⟩

/-- Handler of `POST /students` (`create_student`).  `now` is
`datetime.now()`; `exc = some m` means the first store call raised an
exception with message `m` (caught by the blanket `except` and reported as
500 with detail `str(e) = m`).  An `HTTPException(409)` raised by the
advisory existence check is likewise caught by the same `except` clause and
re-raised as a 500 whose detail is its `str`. -/
def create_student (db : DB) (now : Nat) (s : StudentCreate) (exc : Option String) :
    Resp StudentResponse × DB :=
  match exc with
  | some m => (.err 500 m, db)
  | none =>
    match findOneStudent db.students s.name s.date with
    | some _ =>
      (.err 500 (excStr 409 "Student already exists for this date"), db)
    | none =>
      match insertOneStudent db.students ⟨s.name, s.date, s.is_present, now⟩ with
      | .error m => (.err 500 m, db)
      | .ok students' =>
        match findOneStudent students' s.name s.date with
        | some c => (.ok 201 (studentToResp c), { db with students := students' })
        | none =>
          (.err 500 "TypeError: NoneType object is not subscriptable",
           { db with students := students' })

/-- Handler of `PUT /students/{name}/{date}` (`update_attendance`).  When
`matched_count == 0` the source raises `HTTPException(404)` inside its own
`try:`, so the blanket `except` re-raises it as a 500 with detail
`str(e)`. -/
def update_attendance (db : DB) (name date : String) (v : Bool) (exc : Option String) :
    Resp StudentResponse × DB :=
  match exc with
  | some m => (.err 500 m, db)
  | none =>
    let r := updateOneSetPresent name date v db.students
    if r.1 == 0 then
      (.err 500 (excStr 404 "Student not found"), db)
    else
      match findOneStudent r.2 name date with
      | some u => (.ok 200 (studentToResp u), { db with students := r.2 })
      | none =>
        (.err 500 "TypeError: NoneType object is not subscriptable",
         { db with students := r.2 })

/-- Handler of `GET /students/{date}` (`get_students`):
`list(students.find({"date": date}))` mapped into `StudentResponse`s. -/
def get_students (db : DB) (date : String) (exc : Option String) :
    Resp (List StudentResponse) × DB :=
  match exc with
  | some m => (.err 500 m, db)
  | none =>
    (.ok 200 ((db.students.filter (fun x => x.date == date)).map studentToResp), db)

/-- Handler of `DELETE /students` (`clear_students`).  `delete_many({})`
empties the collection and reports the deleted count; if the count is 0 the
source raises `HTTPException(404)` inside its own `try:`, and its `except`
clause re-raises 500 with the fixed detail `"Failed to clear database"`
(this `except` does not expose `str(e)`). -/
def clear_students (db : DB) (exc : Option String) : Resp String × DB :=
  match exc with
  | some _ => (.err 500 "Failed to clear database", db)
  | none =>
    let deleted := db.students.length
    if deleted == 0 then
      (.err 500 "Failed to clear database", { db with students := [] })
    else
      (.ok 200 "All student records have been cleared", { db with students := [] })

/-- Validity of a client-supplied ObjectId string: `bson.ObjectId` accepts a
24-character hex string and raises `InvalidId` otherwise. -/
def isValidObjectId (s : String) : Bool :=
  s.length == 24 &&
    s.toList.all (fun c => c.isDigit || (97 ≤ c.toNat && c.toNat ≤ 102) || (65 ≤ c.toNat && c.toNat ≤ 70))

/-- `ObjectId(message_id)`: returns the id or raises `InvalidId`. -/
def objectIdOfString (s : String) : Except String String :=
  if isValidObjectId s then .ok s else .error ("InvalidId: " ++ s ++ " is not a valid ObjectId")

/-- `db.student_messages.delete_one({"_id": oid})`: removes the first
document with that id (ids are store-assigned and unique in reachable
states); removes nothing when none matches. -/
def deleteOneMessage (oid : String) : List MessageDoc → List MessageDoc
  | [] => []
  | x :: xs => if x.oid == oid then xs else x :: deleteOneMessage oid xs

/-- Handler of `DELETE /student-messages/{message_id}` (`delete_message`).
The source has no `try/except`: an `InvalidId` from `ObjectId(message_id)`,
or a store exception, propagates uncaught.  On the normal path it returns
`{"status": "deleted"}` (body modelled as the string `"deleted"`) whether or
not anything matched. -/
def delete_message (db : DB) (message_id : String) (exc : Option String) :
    Resp String × DB :=
  match objectIdOfString message_id with
  | .error m => (.uncaught m, db)
  | .ok oid =>
    match exc with
    | some m => (.uncaught m, db)
    | none => (.ok 200 "deleted", { db with messages := deleteOneMessage oid db.messages })

/-- Insertion step of the embedding of Mongo's `sort("timestamp", -1)`:
insert a document into a list sorted by descending timestamp. -/
def insertByTsDesc (m : MessageDoc) : List MessageDoc → List MessageDoc
  | [] => [m]
  | x :: xs => if x.timestamp ≤ m.timestamp then m :: x :: xs else x :: insertByTsDesc m xs

/-- Embedding of `find().sort("timestamp", -1)` on the messages collection:
the documents ordered by descending timestamp. -/
def sortByTsDesc : List MessageDoc → List MessageDoc
  | [] => []
  | x :: xs => insertByTsDesc x (sortByTsDesc xs)

/-- The `StudentMessageResponse` built from a stored message document:
`msg["id"] = str(msg["_id"])`. -/
def msgToResp (m : MessageDoc) : StudentMessageResponse :=
  ⟨m.oid, m.content, m.sender, m.contact_info, m.timestamp⟩

/-- Handler of `GET /student-messages` (`get_messages`): all messages,
newest first, each with its id surfaced. -/
def get_messages (db : DB) : Resp (List StudentMessageResponse) × DB :=
  (.ok 200 ((sortByTsDesc db.messages).map msgToResp), db)

/-- Uniqueness invariant of the `students` collection: no two documents
share the `(subject name, date)` pair. -/
def keysUnique (l : List StudentDoc) : Prop :=
  (l.map (fun d => (d.name, d.date))).Nodup

instance (l : List StudentDoc) : Decidable (keysUnique l) := by
  unfold keysUnique; infer_instance

/-- C1: the claim says creating the same `(subject_name, date)` pair twice
yields HTTP 201 then HTTP 409.  Evaluating the embedded handler: the first
call does return 201, but the second returns HTTP 500 with detail
`"409: Student already exists for this date"`, because the handler's blanket
`except Exception` catches its own `HTTPException(409)` and re-raises it as
a 500.  This contradicts the claim (and the intent visible in the source's
own `raise HTTPException(status.HTTP_409_CONFLICT, ...)`). -/
theorem create_student_twice_eval :
    (create_student ⟨[], []⟩ 0 ⟨"Alice", "2024-01-01", false⟩ none).1
        = Resp.ok 201 ⟨"Alice", "2024-01-01", false, 0⟩ ∧
    (create_student (create_student ⟨[], []⟩ 0 ⟨"Alice", "2024-01-01", false⟩ none).2 1
        ⟨"Alice", "2024-01-01", false⟩ none).1
        = Resp.err 500 "409: Student already exists for this date" := by
  constructor <;> rfl

/-- C3: the claim says updating presence for a nonexistent
`(subject_name, date)` yields HTTP 404 and leaves the store unchanged.  The
store is indeed left unchanged, but the outcome is HTTP 500 with detail
`"404: Student not found"`: the `HTTPException(404)` is raised inside the
handler's own `try:` and re-wrapped by its blanket `except`. -/
theorem update_attendance_missing_eval :
    update_attendance ⟨[], []⟩ "Bob" "2024-01-02" true none
      = (Resp.err 500 "404: Student not found", ⟨[], []⟩) := by
  rfl

/-- C4: the claim says clearing an empty collection yields HTTP 404 and
clearing a non-empty one deletes everything and succeeds.  The non-empty
half holds, but on an empty collection the handler returns HTTP 500 with
the fixed detail `"Failed to clear database"`: the raised
`HTTPException(404)` is caught by the handler's own blanket `except`. -/
theorem clear_students_eval :
    clear_students ⟨[], []⟩ none
      = (Resp.err 500 "Failed to clear database", ⟨[], []⟩) ∧
    clear_students ⟨[⟨"Alice", "2024-01-01", false, 0⟩, ⟨"Bob", "2024-01-01", true, 1⟩], []⟩ none
      = (Resp.ok 200 "All student records have been cleared", ⟨[], []⟩) := by
  constructor <;> rfl

/-- C8 counterexample: the claim says every exception other than the mapped
conflict/not-found outcomes is reported as HTTP 500 with the exception's
message as the response detail.  Two concrete refutations: a store
exception `"boom"` during `DELETE /students` is reported with the fixed
detail `"Failed to clear database"`, not `"boom"`; and an `InvalidId`
exception in `DELETE /student-messages/{id}` is not caught at all (the
handler has no `try/except`), so no 500-with-message response is built. -/
theorem clear_students_detail_fixed :
    (clear_students ⟨[⟨"Alice", "2024-01-01", false, 0⟩], []⟩ (some "boom")).1
      = Resp.err 500 "Failed to clear database" ∧
    "Failed to clear database" ≠ "boom" ∧
    (delete_message ⟨[], []⟩ "zz" none).1
      = Resp.uncaught "InvalidId: zz is not a valid ObjectId" := by
  refine ⟨rfl, ?_, rfl⟩
  decide

/-- C7: listing by date leaves the store unchanged and returns exactly the
records whose `date` field equals the queried date — every matching stored
record appears in the response, and every response entry comes from a stored
record with the queried date. -/
theorem get_students_exact (db : DB) (date : String) :
    (get_students db date none).2 = db ∧
    ∃ l, (get_students db date none).1 = Resp.ok 200 l ∧
      (∀ doc ∈ db.students, doc.date = date → studentToResp doc ∈ l) ∧
      (∀ r ∈ l, ∃ doc ∈ db.students, doc.date = date ∧ r = studentToResp doc) := by
  refine ⟨rfl, (db.students.filter (fun x : StudentDoc => x.date == date)).map studentToResp,
    rfl, ?_, ?_⟩
  · intro doc hmem hdate
    exact List.mem_map_of_mem _ (List.mem_filter.mpr ⟨hmem, by simp [hdate]⟩)
  · intro r hr
    rcases List.mem_map.mp hr with ⟨doc, hdoc, hof⟩
    rcases List.mem_filter.mp hdoc with ⟨hmem, hdate⟩
    exact ⟨doc, hmem, by simpa using hdate, hof.symm⟩

/-- C8 amended: exceptions raised by the store during the attendance
create, update and list handlers are caught and reported as HTTP 500 with
the exception's message as the detail; the clear handler instead reports
500 with the fixed detail `"Failed to clear database"`; and the
message-delete handler catches nothing, so a store exception propagates
uncaught out of the route. -/
theorem exception_mapping_amended (db : DB) (now : Nat) (s : StudentCreate)
    (name date d idStr m : String) (v : Bool)
    (hid : isValidObjectId idStr = true) :
    (create_student db now s (some m)).1 = Resp.err 500 m ∧
    (update_attendance db name date v (some m)).1 = Resp.err 500 m ∧
    (get_students db d (some m)).1 = Resp.err 500 m ∧
    (clear_students db (some m)).1 = Resp.err 500 "Failed to clear database" ∧
    (delete_message db idStr (some m)).1 = Resp.uncaught m := by
  refine ⟨rfl, rfl, rfl, rfl, ?_⟩
  simp [delete_message, objectIdOfString, hid]

/-- Witness: the amended exception-mapping theorem applied at a concrete
database, payload and a concrete well-formed ObjectId string. -/
theorem exception_mapping_amended_witness :
    isValidObjectId "aaaaaaaaaaaaaaaaaaaaaaaa" = true ∧
    ((create_student ⟨[], []⟩ 0 ⟨"Alice", "2024-01-01", false⟩ (some "boom")).1
        = Resp.err 500 "boom" ∧
     (update_attendance ⟨[], []⟩ "Alice" "2024-01-01" true (some "boom")).1
        = Resp.err 500 "boom" ∧
     (get_students ⟨[], []⟩ "2024-01-01" (some "boom")).1 = Resp.err 500 "boom" ∧
     (clear_students ⟨[], []⟩ (some "boom")).1 = Resp.err 500 "Failed to clear database" ∧
     (delete_message ⟨[], []⟩ "aaaaaaaaaaaaaaaaaaaaaaaa" (some "boom")).1
        = Resp.uncaught "boom") :=
  ⟨by decide,
   exception_mapping_amended ⟨[], []⟩ 0 ⟨"Alice", "2024-01-01", false⟩
     "Alice" "2024-01-01" "2024-01-01" "aaaaaaaaaaaaaaaaaaaaaaaa" "boom" true (by decide)⟩

theorem updateOne_key_map (name date : String) (v : Bool) (l : List StudentDoc) :
    ((updateOneSetPresent name date v l).2).map (fun d => (d.name, d.date))
      = l.map (fun d => (d.name, d.date)) := by
  induction l with
  | nil => rfl
  | cons x xs ih =>
    by_cases hx : (x.name == name && x.date == date) = true
    · simp [updateOneSetPresent, hx]
    · simp [updateOneSetPresent, hx, ih]

theorem updateOne_fields_map (name date : String) (v : Bool) (l : List StudentDoc) :
    ((updateOneSetPresent name date v l).2).map (fun d => (d.name, d.date, d.timestamp))
      = l.map (fun d => (d.name, d.date, d.timestamp)) := by
  induction l with
  | nil => rfl
  | cons x xs ih =>
    by_cases hx : (x.name == name && x.date == date) = true
    · simp [updateOneSetPresent, hx]
    · simp [updateOneSetPresent, hx, ih]

theorem updateOne_count (name date : String) (v : Bool) (l : List StudentDoc) :
    (updateOneSetPresent name date v l).1
      = (if l.any (fun x => x.name == name && x.date == date) then 1 else 0) := by
  induction l with
  | nil => rfl
  | cons x xs ih =>
    by_cases hx : (x.name == name && x.date == date) = true
    · simp [updateOneSetPresent, hx]
    · simp [updateOneSetPresent, hx, ih]

theorem updateOne_idem (name date : String) (v : Bool) (l : List StudentDoc) :
    updateOneSetPresent name date v (updateOneSetPresent name date v l).2
      = updateOneSetPresent name date v l := by
  induction l with
  | nil => rfl
  | cons x xs ih =>
    by_cases hx : (x.name == name && x.date == date) = true
    · simp [updateOneSetPresent, hx]
    · simp [updateOneSetPresent, hx, ih]

theorem findOne_update (name date : String) (v : Bool) (l : List StudentDoc) :
    findOneStudent (updateOneSetPresent name date v l).2 name date
      = (findOneStudent l name date).map (fun u => { u with is_present := v }) := by
  induction l with
  | nil => rfl
  | cons x xs ih =>
    by_cases hx : (x.name == name && x.date == date) = true
    · simp [updateOneSetPresent, findOneStudent, List.find?, hx]
    · have hx2 : (x.name == name && x.date == date) = false := by simpa using hx
      simp only [updateOneSetPresent, hx2, Bool.false_eq_true, if_false]
      simp only [findOneStudent, List.find?, hx2] at ih ⊢
      exact ih

theorem updateOne_decomp (name date : String) (v : Bool) (l : List StudentDoc) :
    ((updateOneSetPresent name date v l).2 = l ∧
       ∀ x ∈ l, ¬(x.name = name ∧ x.date = date)) ∨
    (∃ l₁ m l₂, l = l₁ ++ m :: l₂ ∧
       (∀ x ∈ l₁, ¬(x.name = name ∧ x.date = date)) ∧
       m.name = name ∧ m.date = date ∧
       (updateOneSetPresent name date v l).2 = l₁ ++ { m with is_present := v } :: l₂) := by
  induction l with
  | nil => exact Or.inl ⟨rfl, by simp⟩
  | cons x xs ih =>
    by_cases hx : (x.name == name && x.date == date) = true
    · rw [Bool.and_eq_true, beq_iff_eq, beq_iff_eq] at hx
      exact Or.inr ⟨[], x, xs, by simp, by simp, hx.1, hx.2,
        by simp [updateOneSetPresent, hx.1, hx.2]⟩
    · have hx' : ¬(x.name = name ∧ x.date = date) := by
        rw [Bool.and_eq_true, beq_iff_eq, beq_iff_eq] at hx; exact hx
      rcases ih with ⟨heq, hall⟩ | ⟨l₁, m, l₂, hsplit, hall, hn, hd, hres⟩
      · refine Or.inl ⟨?_, ?_⟩
        · simp [updateOneSetPresent, hx, heq]
        · intro y hy
          rcases List.mem_cons.mp hy with rfl | hy
          · exact hx'
          · exact hall y hy
      · refine Or.inr ⟨x :: l₁, m, l₂, by simp [hsplit], ?_, hn, hd, ?_⟩
        · intro y hy
          rcases List.mem_cons.mp hy with rfl | hy
          · exact hx'
          · exact hall y hy
        · simp [updateOneSetPresent, hx, hres]

theorem findOne_none_key (l : List StudentDoc) (name date : String)
    (h : findOneStudent l name date = none) :
    (name, date) ∉ l.map (fun d => (d.name, d.date)) := by
  intro hmem
  rcases List.mem_map.mp hmem with ⟨x, hx, hkey⟩
  have hnp := List.find?_eq_none.mp h x hx
  apply hnp
  have h1 : x.name = name := congrArg Prod.fst hkey
  have h2 : x.date = date := congrArg Prod.snd hkey
  simp [h1, h2]

theorem create_student_shape (db : DB) (now : Nat) (s : StudentCreate) :
    ((create_student db now s none).2).students = db.students ∨
    (findOneStudent db.students s.name s.date = none ∧
      ((create_student db now s none).2).students
        = db.students ++ [⟨s.name, s.date, s.is_present, now⟩]) := by
  unfold create_student
  cases hfind : findOneStudent db.students s.name s.date with
  | some x => exact Or.inl rfl
  | none =>
    refine Or.inr ⟨rfl, ?_⟩
    have hany : (db.students.any fun x => x.date == s.date && x.name == s.name) = false := by
      rw [List.any_eq_false]
      intro x hx hcontra
      apply List.find?_eq_none.mp hfind x hx
      rw [Bool.and_eq_true] at hcontra ⊢
      exact ⟨hcontra.2, hcontra.1⟩
    simp only [insertOneStudent, hany, Bool.false_eq_true, if_false]
    split <;> rfl

/-- C2: if the `(subject_name, date)` pair is unique across the stored
attendance records, then it is still unique after any of the four attendance
operations (create, update presence, list by date, clear all), with or
without a store exception — so every reachable store state keeps the pair
unique. -/
theorem unique_pair_preserved (db : DB) (now : Nat) (s : StudentCreate)
    (name date d : String) (v : Bool) (exc : Option String)
    (h : keysUnique db.students) :
    keysUnique ((create_student db now s exc).2).students ∧
    keysUnique ((update_attendance db name date v exc).2).students ∧
    keysUnique ((get_students db d exc).2).students ∧
    keysUnique ((clear_students db exc).2).students := by
  cases exc with
  | some m => exact ⟨h, h, h, h⟩
  | none =>
    refine ⟨?_, ?_, h, ?_⟩
    · rcases create_student_shape db now s with heq | ⟨hfind, heq⟩
      · rw [heq]; exact h
      · rw [heq]
        unfold keysUnique at h ⊢
        rw [List.map_append]
        refine List.Nodup.append h (by simp) ?_
        intro a ha hb
        simp only [List.map_cons, List.map_nil, List.mem_singleton] at hb
        subst hb
        exact findOne_none_key db.students s.name s.date hfind ha
    · have hk : keysUnique (updateOneSetPresent name date v db.students).2 := by
        unfold keysUnique at h ⊢
        rw [updateOne_key_map]
        exact h
      unfold update_attendance
      simp only
      split
      · exact h
      · split
        · exact hk
        · exact hk
    · unfold clear_students
      simp only
      split
      · simp [keysUnique]
      · simp [keysUnique]

/-- Witness: the uniqueness-preservation theorem applied at a concrete
one-record database and concrete operation arguments. -/
theorem unique_pair_preserved_witness :
    keysUnique (DB.mk [⟨"Alice", "2024-01-01", false, 0⟩] []).students ∧
    (keysUnique ((create_student (DB.mk [⟨"Alice", "2024-01-01", false, 0⟩] []) 1
        ⟨"Bob", "2024-01-01", false⟩ none).2).students ∧
     keysUnique ((update_attendance (DB.mk [⟨"Alice", "2024-01-01", false, 0⟩] [])
        "Alice" "2024-01-01" true none).2).students ∧
     keysUnique ((get_students (DB.mk [⟨"Alice", "2024-01-01", false, 0⟩] [])
        "2024-01-01" none).2).students ∧
     keysUnique ((clear_students (DB.mk [⟨"Alice", "2024-01-01", false, 0⟩] [])
        none).2).students) :=
  ⟨by decide,
   unique_pair_preserved (DB.mk [⟨"Alice", "2024-01-01", false, 0⟩] []) 1
     ⟨"Bob", "2024-01-01", false⟩ "Alice" "2024-01-01" "2024-01-01" true none (by decide)⟩

/-- C5: when the store contains a record with the given
`(subject_name, date)` pair, two identical presence-update calls are
idempotent — the second call returns exactly the same response and the same
store state as the first. -/
theorem update_attendance_idem (db : DB) (name date : String) (v : Bool)
    (h : ∃ x ∈ db.students, x.name = name ∧ x.date = date) :
    update_attendance ((update_attendance db name date v none).2) name date v none
      = update_attendance db name date v none := by
  obtain ⟨x, hx, hx1, hx2⟩ := h
  have hcount : (updateOneSetPresent name date v db.students).1 = 1 := by
    rw [updateOne_count]
    have hany : (db.students.any fun y => y.name == name && y.date == date) = true :=
      List.any_eq_true.mpr ⟨x, hx, by simp [hx1, hx2]⟩
    rw [hany]
    simp
  obtain ⟨u₀, hu₀⟩ : ∃ u, findOneStudent db.students name date = some u := by
    cases hf : findOneStudent db.students name date with
    | some u => exact ⟨u, rfl⟩
    | none =>
      exact absurd (by simp [hx1, hx2] : (x.name == name && x.date == date) = true)
        (List.find?_eq_none.mp hf x hx)
  have hfind' : findOneStudent (updateOneSetPresent name date v db.students).2 name date
      = some { u₀ with is_present := v } := by
    rw [findOne_update, hu₀]
    rfl
  have hinner : update_attendance db name date v none
      = (Resp.ok 200 (studentToResp { u₀ with is_present := v }),
         { db with students := (updateOneSetPresent name date v db.students).2 }) := by
    simp only [update_attendance]
    rw [hcount]
    simp only [show ((1 : Nat) == 0) = false from rfl, Bool.false_eq_true, if_false, hfind']
  have houter :
      update_attendance ({ db with students := (updateOneSetPresent name date v db.students).2 })
          name date v none
        = (Resp.ok 200 (studentToResp { u₀ with is_present := v }),
           { db with students := (updateOneSetPresent name date v db.students).2 }) := by
    simp only [update_attendance]
    rw [updateOne_idem, hcount]
    simp only [show ((1 : Nat) == 0) = false from rfl, Bool.false_eq_true, if_false, hfind']
  rw [hinner]
  exact houter

/-- Witness: the idempotence theorem applied at a concrete one-record
database. -/
theorem update_attendance_idem_witness :
    (∃ x ∈ (DB.mk [⟨"Alice", "2024-01-01", false, 0⟩] []).students,
        x.name = "Alice" ∧ x.date = "2024-01-01") ∧
    update_attendance
        ((update_attendance (DB.mk [⟨"Alice", "2024-01-01", false, 0⟩] [])
            "Alice" "2024-01-01" true none).2) "Alice" "2024-01-01" true none
      = update_attendance (DB.mk [⟨"Alice", "2024-01-01", false, 0⟩] [])
          "Alice" "2024-01-01" true none :=
  ⟨by decide,
   update_attendance_idem (DB.mk [⟨"Alice", "2024-01-01", false, 0⟩] [])
     "Alice" "2024-01-01" true (by decide)⟩

theorem update_attendance_students (db : DB) (name date : String) (v : Bool) :
    ((update_attendance db name date v none).2).students
      = (updateOneSetPresent name date v db.students).2 := by
  simp only [update_attendance]
  split
  · rename_i hc
    rcases updateOne_decomp name date v db.students with ⟨heq, _⟩ |
        ⟨l₁, m, l₂, hsplit, _, hn, hd, _⟩
    · exact heq.symm
    · exfalso
      have hone : (updateOneSetPresent name date v db.students).1 = 1 := by
        rw [updateOne_count]
        have hany : (db.students.any fun y => y.name == name && y.date == date) = true :=
          List.any_eq_true.mpr ⟨m, by rw [hsplit]; simp, by simp [hn, hd]⟩
        rw [hany]
        simp
      simp [hone] at hc
  · split <;> rfl

theorem update_attendance_messages (db : DB) (name date : String) (v : Bool)
    (exc : Option String) :
    ((update_attendance db name date v exc).2).messages = db.messages := by
  cases exc with
  | some m => rfl
  | none =>
    simp only [update_attendance]
    split
    · rfl
    · split <;> rfl

/-- C6: the presence-update operation only ever changes the `is_present`
field of the first record matching `(subject_name, date)`: the
`(name, date, created_at)` projection of the whole collection is unchanged,
every record other than the matched one is kept exactly as it was (the
explicit decomposition below), the messages collection is untouched, and no
later operation rewrites the `created_at` timestamp of an existing record —
create only appends, list leaves the store unchanged, and clear only
deletes. -/
theorem update_attendance_frame (db : DB) (name date d : String) (v : Bool) (now : Nat)
    (s : StudentCreate) (exc : Option String) :
    (((update_attendance db name date v none).2).students.map
        (fun x => (x.name, x.date, x.timestamp))
      = db.students.map (fun x => (x.name, x.date, x.timestamp))) ∧
    ((update_attendance db name date v none).2).messages = db.messages ∧
    ((((update_attendance db name date v none).2).students = db.students ∧
        ∀ x ∈ db.students, ¬(x.name = name ∧ x.date = date)) ∨
      ∃ l₁ m l₂, db.students = l₁ ++ m :: l₂ ∧
        (∀ x ∈ l₁, ¬(x.name = name ∧ x.date = date)) ∧
        m.name = name ∧ m.date = date ∧
        ((update_attendance db name date v none).2).students
          = l₁ ++ { m with is_present := v } :: l₂) ∧
    (∃ tail, ((create_student db now s exc).2).students = db.students ++ tail) ∧
    (get_students db d exc).2 = db ∧
    (∀ x ∈ ((clear_students db exc).2).students, x ∈ db.students) := by
  refine ⟨?_, update_attendance_messages db name date v none, ?_, ?_, ?_, ?_⟩
  · rw [update_attendance_students]
    exact updateOne_fields_map name date v db.students
  · rcases updateOne_decomp name date v db.students with ⟨heq, hall⟩ |
        ⟨l₁, m, l₂, hsplit, hall, hn, hd, hres⟩
    · exact Or.inl ⟨(update_attendance_students db name date v).trans heq, hall⟩
    · exact Or.inr ⟨l₁, m, l₂, hsplit, hall, hn, hd,
        (update_attendance_students db name date v).trans hres⟩
  · cases exc with
    | some m => exact ⟨[], by rw [List.append_nil]; rfl⟩
    | none =>
      rcases create_student_shape db now s with heq | ⟨_, heq⟩
      · exact ⟨[], by simp [heq]⟩
      · exact ⟨[⟨s.name, s.date, s.is_present, now⟩], heq⟩
  · cases exc with
    | some m => rfl
    | none => rfl
  · cases exc with
    | some m => exact fun x hx => hx
    | none =>
      intro x hx
      simp only [clear_students] at hx
      split at hx <;> simp at hx

theorem insertByTsDesc_perm (m : MessageDoc) (l : List MessageDoc) :
    (insertByTsDesc m l).Perm (m :: l) := by
  induction l with
  | nil => exact List.Perm.refl _
  | cons x xs ih =>
    by_cases h : (x.timestamp ≤ m.timestamp)
    · simp only [insertByTsDesc, if_pos h]
      exact List.Perm.refl _
    · simp only [insertByTsDesc, if_neg h]
      exact (ih.cons x).trans (List.Perm.swap m x xs)

theorem sortByTsDesc_perm (l : List MessageDoc) : (sortByTsDesc l).Perm l := by
  induction l with
  | nil => exact List.Perm.refl _
  | cons x xs ih => exact (insertByTsDesc_perm x (sortByTsDesc xs)).trans (ih.cons x)

theorem deleteOne_subset (oid : String) (l : List MessageDoc) :
    ∀ x ∈ deleteOneMessage oid l, x ∈ l := by
  induction l with
  | nil => intro x hx; exact absurd hx (by simp [deleteOneMessage])
  | cons y ys ih =>
    by_cases h : (y.oid == oid) = true
    · rw [deleteOneMessage, if_pos h]
      intro x hx
      exact List.mem_cons_of_mem y hx
    · rw [deleteOneMessage, if_neg h]
      intro x hx
      rcases List.mem_cons.mp hx with rfl | hx
      · exact List.mem_cons_self _ _
      · exact List.mem_cons_of_mem y (ih x hx)

theorem deleteOne_keeps (oid : String) (l : List MessageDoc) :
    ∀ x ∈ l, x.oid ≠ oid → x ∈ deleteOneMessage oid l := by
  induction l with
  | nil => intro x hx; exact absurd hx (by simp)
  | cons y ys ih =>
    intro x hx hne
    by_cases h : (y.oid == oid) = true
    · rw [deleteOneMessage, if_pos h]
      rcases List.mem_cons.mp hx with rfl | hx
      · exact absurd (beq_iff_eq.mp h) hne
      · exact hx
    · rw [deleteOneMessage, if_neg h]
      rcases List.mem_cons.mp hx with rfl | hx
      · exact List.mem_cons_self _ _
      · exact List.mem_cons_of_mem y (ih x hx hne)

theorem deleteOne_oid_gone (oid : String) :
    ∀ l : List MessageDoc, (l.map (fun x => x.oid)).Nodup →
      ∀ x ∈ deleteOneMessage oid l, x.oid ≠ oid := by
  intro l
  induction l with
  | nil => intro _ x hx; exact absurd hx (by simp [deleteOneMessage])
  | cons y ys ih =>
    intro hnodup x hx
    rw [List.map_cons, List.nodup_cons] at hnodup
    by_cases h : (y.oid == oid) = true
    · rw [deleteOneMessage, if_pos h] at hx
      rw [beq_iff_eq] at h
      intro hxo
      apply hnodup.1
      rw [h, ← hxo]
      exact List.mem_map_of_mem _ hx
    · rw [deleteOneMessage, if_neg h] at hx
      rcases List.mem_cons.mp hx with rfl | hx
      · simpa using h
      · exact ih hnodup.2 x hx

theorem deleteOne_noop (oid : String) (l : List MessageDoc)
    (h : ∀ x ∈ l, x.oid ≠ oid) : deleteOneMessage oid l = l := by
  induction l with
  | nil => rfl
  | cons y ys ih =>
    have hy : (y.oid == oid) = false := by
      simpa using h y (List.mem_cons_self _ _)
    rw [deleteOneMessage, if_neg (by simp [hy])]
    rw [ih (fun x hx => h x (List.mem_cons_of_mem y hx))]

theorem deleteOne_length (oid : String) (m : MessageDoc) (hoid : m.oid = oid) :
    ∀ l : List MessageDoc, m ∈ l → (deleteOneMessage oid l).length + 1 = l.length := by
  intro l
  induction l with
  | nil => intro hm; cases hm
  | cons y ys ih =>
    intro hm
    by_cases h : (y.oid == oid) = true
    · rw [deleteOneMessage, if_pos h]
      rfl
    · rw [deleteOneMessage, if_neg h]
      rcases List.mem_cons.mp hm with rfl | hm'
      · exact absurd (by simp [hoid]) h
      · rw [List.length_cons, List.length_cons, ← ih hm']

/-- C9: deleting a stored message by its assigned identifier (identifiers
are store-assigned, hence pairwise distinct) succeeds, leaves the students
collection untouched, removes exactly one message — every message with a
different identifier is kept — and the subsequent listing excludes the
deleted message and includes all others. -/
theorem delete_message_removes_only (db : DB) (m : MessageDoc)
    (hvalid : isValidObjectId m.oid = true)
    (hmem : m ∈ db.messages)
    (hnodup : (db.messages.map (fun x => x.oid)).Nodup) :
    (delete_message db m.oid none).1 = Resp.ok 200 "deleted" ∧
    ((delete_message db m.oid none).2).students = db.students ∧
    ((delete_message db m.oid none).2).messages.length + 1 = db.messages.length ∧
    (∀ x ∈ ((delete_message db m.oid none).2).messages, x ∈ db.messages) ∧
    (∀ x ∈ db.messages, x.oid ≠ m.oid → x ∈ ((delete_message db m.oid none).2).messages) ∧
    (∀ x ∈ ((delete_message db m.oid none).2).messages, x.oid ≠ m.oid) ∧
    ∃ L, (get_messages ((delete_message db m.oid none).2)).1 = Resp.ok 200 L ∧
      msgToResp m ∉ L ∧
      ∀ x ∈ db.messages, x.oid ≠ m.oid → msgToResp x ∈ L := by
  have hd : delete_message db m.oid none
      = (Resp.ok 200 "deleted", { db with messages := deleteOneMessage m.oid db.messages }) := by
    simp [delete_message, objectIdOfString, hvalid]
  rw [hd]
  refine ⟨rfl, rfl, ?_, ?_, ?_, ?_, ?_⟩
  · exact deleteOne_length m.oid m rfl db.messages hmem
  · exact deleteOne_subset m.oid db.messages
  · exact fun x hx hne => deleteOne_keeps m.oid db.messages x hx hne
  · exact deleteOne_oid_gone m.oid db.messages hnodup
  · refine ⟨(sortByTsDesc (deleteOneMessage m.oid db.messages)).map msgToResp, rfl, ?_, ?_⟩
    · intro hmm
      rcases List.mem_map.mp hmm with ⟨y, hy, heq⟩
      have hy' : y ∈ deleteOneMessage m.oid db.messages := (sortByTsDesc_perm _).subset hy
      exact deleteOne_oid_gone m.oid db.messages hnodup y hy'
        (congrArg StudentMessageResponse.id heq)
    · intro x hx hne
      exact List.mem_map_of_mem _
        (((sortByTsDesc_perm _).mem_iff).mpr (deleteOne_keeps m.oid db.messages x hx hne))

/-- Witness: the message-deletion theorem applied at a concrete two-message
database, deleting the first message. -/
theorem delete_message_removes_only_witness :
    (isValidObjectId "aaaaaaaaaaaaaaaaaaaaaaaa" = true ∧
     (⟨"aaaaaaaaaaaaaaaaaaaaaaaa", "hi", "Anonymous", "", 5⟩ : MessageDoc) ∈
       (DB.mk [] [⟨"aaaaaaaaaaaaaaaaaaaaaaaa", "hi", "Anonymous", "", 5⟩,
                  ⟨"bbbbbbbbbbbbbbbbbbbbbbbb", "yo", "Bob", "x", 3⟩]).messages ∧
     ((DB.mk [] [⟨"aaaaaaaaaaaaaaaaaaaaaaaa", "hi", "Anonymous", "", 5⟩,
                 ⟨"bbbbbbbbbbbbbbbbbbbbbbbb", "yo", "Bob", "x", 3⟩]).messages.map
        (fun x => x.oid)).Nodup) ∧
    (delete_message (DB.mk [] [⟨"aaaaaaaaaaaaaaaaaaaaaaaa", "hi", "Anonymous", "", 5⟩,
        ⟨"bbbbbbbbbbbbbbbbbbbbbbbb", "yo", "Bob", "x", 3⟩])
        "aaaaaaaaaaaaaaaaaaaaaaaa" none).1 = Resp.ok 200 "deleted" :=
  ⟨⟨by decide, by decide, by decide⟩,
   (delete_message_removes_only
      (DB.mk [] [⟨"aaaaaaaaaaaaaaaaaaaaaaaa", "hi", "Anonymous", "", 5⟩,
                 ⟨"bbbbbbbbbbbbbbbbbbbbbbbb", "yo", "Bob", "x", 3⟩])
      ⟨"aaaaaaaaaaaaaaaaaaaaaaaa", "hi", "Anonymous", "", 5⟩
      (by decide) (by decide) (by decide)).1⟩

/-- C10: deleting a message by a well-formed identifier that matches no
stored message still returns the success body (HTTP 200,
`{"status": "deleted"}`) and leaves the store unchanged. -/
theorem delete_message_missing_ok (db : DB) (idStr : String)
    (hvalid : isValidObjectId idStr = true)
    (hnone : ∀ x ∈ db.messages, x.oid ≠ idStr) :
    delete_message db idStr none = (Resp.ok 200 "deleted", db) := by
  have hno : deleteOneMessage idStr db.messages = db.messages :=
    deleteOne_noop idStr db.messages hnone
  simp [delete_message, objectIdOfString, hvalid, hno]

/-- Witness: the missing-identifier deletion theorem applied at a concrete
one-message database and a valid identifier not present in it. -/
theorem delete_message_missing_ok_witness :
    (isValidObjectId "aaaaaaaaaaaaaaaaaaaaaaaa" = true ∧
     ∀ x ∈ (DB.mk [] [⟨"bbbbbbbbbbbbbbbbbbbbbbbb", "yo", "Bob", "x", 3⟩]).messages,
       x.oid ≠ "aaaaaaaaaaaaaaaaaaaaaaaa") ∧
    delete_message (DB.mk [] [⟨"bbbbbbbbbbbbbbbbbbbbbbbb", "yo", "Bob", "x", 3⟩])
        "aaaaaaaaaaaaaaaaaaaaaaaa" none
      = (Resp.ok 200 "deleted", DB.mk [] [⟨"bbbbbbbbbbbbbbbbbbbbbbbb", "yo", "Bob", "x", 3⟩]) :=
  ⟨⟨by decide, by decide⟩,
   delete_message_missing_ok (DB.mk [] [⟨"bbbbbbbbbbbbbbbbbbbbbbbb", "yo", "Bob", "x", 3⟩])
     "aaaaaaaaaaaaaaaaaaaaaaaa" (by decide) (by decide)⟩
